import Mathlib

/-!
Verification of the chain-authorization module (core/node/auth/auth_impl.go).

The Go code is shallowly embedded: every external collaborator (space
contract, wallet-link contract, rule evaluator, chain RPC client) becomes an
oracle field of an environment record, machine integers become naturals with
explicit reduction modulo 2 ^ 64 or 2 ^ 160 where the Go code narrows, Go
strings become lists of characters, and fallible Go functions (value, error)
become Except values.
-/

namespace TownsAuth

/-- Ethereum account addresses are 20-byte values; we model them as natural
numbers, applying reduction modulo 2 ^ 160 where the Go code narrows byte
strings to 20 bytes (go-ethereum BytesToAddress keeps the last 20 bytes). -/
abbrev Address := Nat

/-- Value of a single hexadecimal digit character, accepting both letter
cases, as in the hex decoder behind go-ethereum common.HexToAddress. -/
def hexCharVal? (c : Char) : Option Nat :=
  if ('0' ≤ c ∧ c ≤ '9') then some (c.toNat - 48)
  else if ('a' ≤ c ∧ c ≤ 'f') then some (c.toNat - 87)
  else if ('A' ≤ c ∧ c ≤ 'F') then some (c.toNat - 55)
  else none

/-- Big-endian hex parse with accumulator; fails on the first character that
is not a hex digit. -/
def parseHexAcc (acc : Nat) : List Char → Option Nat
  | [] => some acc
  | c :: rest =>
    match hexCharVal? c with
    | some v => parseHexAcc (16 * acc + v) rest
    | none => none

/-- Model of go-ethereum common.HexToAddress: strip an optional 0x prefix,
decode the hex digits, keep the low 160 bits.  The empty string decodes to the
zero address.  (On malformed input go-ethereum keeps the longest prefix of
valid byte pairs; no claim exercises malformed input, and we map it to the
zero address.) -/
def hexToAddress (s : List Char) : Address :=
  let digits :=
    match s with
    | '0' :: 'x' :: rest => rest
    | '0' :: 'X' :: rest => rest
    | other => other
  match parseHexAcc 0 digits with
  | some n => n % 2 ^ 160
  | none => 0

/-- The sentinel address granting access to everyone, from auth_impl.go line
79: common.HexToAddress applied to the string 0x1. -/
def everyone : Address := hexToAddress ('0' :: 'x' :: '1' :: [])

/-- Lowercase hexadecimal digit character. -/
def hexDigitChar (d : Nat) : Char :=
  if d < 10 then Char.ofNat (48 + d) else Char.ofNat (87 + d)

/-- Big-endian fixed-width hex digits of a number: the first argument is the
number of digits produced. -/
def toHexDigits : Nat → Nat → List Char
  | 0, _ => []
  | k + 1, n => toHexDigits k (n / 16) ++ [hexDigitChar (n % 16)]

/-- Model of common.Address.Hex: the 0x prefix followed by exactly 40 hex
digits.  (go-ethereum mixes letter case to encode the EIP-55 checksum; parsing
is case-insensitive, so all-lowercase digits are an equivalent model.) -/
def addressHex (a : Address) : List Char :=
  '0' :: 'x' :: toHexDigits 40 a

/-- Tail of the comma-separated serialization built by
ChainAuthArgs.withLinkedWallets: every element after the first is preceded by
a comma. -/
def serializeRest : List Address → List Char
  | [] => []
  | a :: rest => ',' :: (addressHex a ++ serializeRest rest)

/-- The strings.Builder loop of ChainAuthArgs.withLinkedWallets
(auth_impl.go lines 162-173): hex forms of the addresses joined with commas;
the empty list serializes to the empty string. -/
def serializeWallets : List Address → List Char
  | [] => []
  | a :: rest => addressHex a ++ serializeRest rest

/-- strings.Split on a comma separator: the list of maximal comma-free
segments; the empty string splits into one empty segment. -/
def splitOnComma : List Char → List (List Char)
  | [] => [[]]
  | c :: rest =>
    if c = ',' then [] :: splitOnComma rest
    else
      match splitOnComma rest with
      | [] => [[c]]
      | p :: ps => (c :: p) :: ps

/-- deserializeWallets (auth_impl.go lines 663-670): split the serialized
string on commas and hex-decode every segment. -/
def deserializeWallets (s : List Char) : List Address :=
  (splitOnComma s).map hexToAddress

/-- The protocol permission enum; the auth logic only distinguishes
PermissionRead (it triggers a linked-wallet cache bust), so the remaining
values are collapsed into indexed constructors. -/
inductive Permission where
  | read
  | write
  | other (n : Nat)
deriving DecidableEq, Repr

/-- chainAuthKind (auth_impl.go lines 124-133). -/
inductive ChainAuthKind where
  | space
  | channel
  | spaceEnabled
  | channelEnabled
  | isSpaceMember
  | isWalletLinked
deriving DecidableEq, Repr

/-- EntitlementResultReason codes used by the module. -/
inductive EntitlementResultReason where
  | none
  | spaceDisabled
  | channelDisabled
  | spaceEntitlements
  | channelEntitlements
  | membership
  | membershipExpired
  | walletNotLinked
deriving DecidableEq, Repr

/-- River error codes used by the module. -/
inductive ErrCode where
  | permissionDenied
  | downstreamNetworkError
  | resourceExhausted
  | cannotCheckEntitlements
  | internal
deriving DecidableEq, Repr

/-- Identifies the message of a RiverError raised by the module; mismatch
messages carry the log and topic indexes the Go messages report. -/
inductive ErrMsg where
  | receiptNotFound
  | blockNumberMismatch
  | logCountMismatch
  | logAddressMismatch (i : Nat)
  | logTopicsCountMismatch (i : Nat)
  | logTopicMismatch (i j : Nat)
  | logDataMismatch (i : Nat)
  | txPending
  | toAddressMismatch
  | fromAddressMismatch
  | failedLatestBlockNumber
  | zeroConfirmations
  | tooManyWallets
  | unknownChainAuthKind
  | wrongChainAuthKind
deriving DecidableEq, Repr

/-- Errors returned by the module: either a single RiverError with its code
and message, or a wrapping of collected errors under a code, as produced by
AsRiverError over a joined error chain. -/
inductive AuthErr where
  | simple (code : ErrCode) (msg : ErrMsg)
  | aggregate (code : ErrCode) (errs : List AuthErr)
deriving Repr

/-- The two fields of MembershipStatus the module reads. -/
structure MembershipStatus where
  isMember : Bool
  isExpired : Bool
deriving DecidableEq, Repr

/-- types.Entitlement as consumed by evaluateEntitlementData: the
EntitlementType tag selects a rule (V1 or V2) payload or a user list; every
other tag lands in the warn-and-skip branch, modelled by the unknown
constructor.  The rule payload types are abstract parameters. -/
inductive Entitlement (V1 V2 : Type) where
  | ruleV1 (re : V1)
  | ruleV2 (re : V2)
  | userList (users : List Address)
  | unknown

/-- ChainAuthArgs (auth_impl.go lines 135-143); stream ids are opaque
numbers, linkedWallets is the serialized wallet list used as part of cache
keys. -/
structure ChainAuthArgs where
  kind : ChainAuthKind
  spaceId : Nat
  channelId : Nat
  principal : Address
  permission : Permission
  linkedWallets : List Char
  walletAddress : Address
deriving DecidableEq, Repr

/-- ChainAuthArgs.withLinkedWallets (lines 162-173): copy the args, replacing
the serialized linked-wallet string. -/
def ChainAuthArgs.withLinkedWallets (args : ChainAuthArgs) (ws : List Address) : ChainAuthArgs :=
  { args with linkedWallets := serializeWallets ws }

/-- The collaborators of the chainAuth value, as oracles: the space contract,
the wallet-link contract, the rule evaluator and the configured wallet limit.
V1 and V2 are the abstract rule-data payload types. -/
structure Env (V1 V2 : Type) where
  linkedWalletsLimit : Nat
  hasWalletLinkContract : Bool
  resolveLinkedWallets : Address → Except AuthErr (List Address)
  isSpaceDisabled : Nat → Except AuthErr Bool
  isChannelDisabled : Nat → Nat → Except AuthErr Bool
  getSpaceEntitlements : Nat → Permission → Except AuthErr (List (Entitlement V1 V2) × Address)
  getChannelEntitlements : Nat → Nat → Permission → Except AuthErr (List (Entitlement V1 V2) × Address)
  isBanned : Nat → List Address → Except AuthErr Bool
  getMembershipStatus : Nat → Address → Except AuthErr MembershipStatus
  convertV1RuleDataToV2 : V1 → Except AuthErr V2
  evaluateRuleData : List Address → V2 → Except AuthErr Bool

variable {V1 V2 : Type}

/-- The user-entitlement scan inside evaluateEntitlementData (lines 721-733):
the everyone sentinel grants immediately, otherwise some linked wallet must
equal the listed user; exhaustion falls through to the next record. -/
def userEntitlementHit (wallets : List Address) : List Address → Bool
  | [] => false
  | user :: rest =>
    if user = everyone then true
    else if user ∈ wallets then true
    else userEntitlementHit wallets rest

/-- The record loop of evaluateEntitlementData (lines 684-737), with the
deserialized wallets fixed. -/
def evaluateEntitlementLoop (env : Env V1 V2) (wallets : List Address) :
    List (Entitlement V1 V2) → Except AuthErr Bool
  | [] => .ok false
  | ent :: rest =>
    match ent with
    | .ruleV1 re =>
      match env.convertV1RuleDataToV2 re with
      | .error e => .error e
      | .ok reV2 =>
        match env.evaluateRuleData wallets reV2 with
        | .error e => .error e
        | .ok true => .ok true
        | .ok false => evaluateEntitlementLoop env wallets rest
    | .ruleV2 re =>
      match env.evaluateRuleData wallets re with
      | .error e => .error e
      | .ok true => .ok true
      | .ok false => evaluateEntitlementLoop env wallets rest
    | .userList users =>
      if userEntitlementHit wallets users then .ok true
      else evaluateEntitlementLoop env wallets rest
    | .unknown => evaluateEntitlementLoop env wallets rest

/-- evaluateEntitlementData (auth_impl.go lines 675-739): deserialize the
wallets from the args and scan the records. -/
def evaluateEntitlementData (env : Env V1 V2) (ents : List (Entitlement V1 V2))
    (args : ChainAuthArgs) : Except AuthErr Bool :=
  evaluateEntitlementLoop env (deserializeWallets args.linkedWallets) ents

/-- evaluateWithEntitlements (auth_impl.go lines 745-797): owner override,
then ban check, then record evaluation. -/
def evaluateWithEntitlements (env : Env V1 V2) (args : ChainAuthArgs) (owner : Address)
    (ents : List (Entitlement V1 V2)) : Except AuthErr Bool :=
  let wallets := deserializeWallets args.linkedWallets
  if owner ∈ wallets then .ok true
  else
    match env.isBanned args.spaceId wallets with
    | .error e => .error e
    | .ok true => .ok false
    | .ok false => evaluateEntitlementData env ents args

/-- isEntitledToSpace (lines 799-855, caching collapsed): fetch the space
entitlements and owner for the permission and evaluate; the reason reported
on success is SPACE_ENTITLEMENTS. -/
def isEntitledToSpace (env : Env V1 V2) (args : ChainAuthArgs) :
    Except AuthErr (Bool × EntitlementResultReason) :=
  if args.kind ≠ ChainAuthKind.space then .error (.simple .internal .wrongChainAuthKind)
  else
    match env.getSpaceEntitlements args.spaceId args.permission with
    | .error e => .error e
    | .ok (entitlementData, owner) =>
      match evaluateWithEntitlements env args owner entitlementData with
      | .error e => .error e
      | .ok allowed => .ok (allowed, .spaceEntitlements)

/-- isEntitledToChannel (lines 621-661 and 857-877, caching collapsed). -/
def isEntitledToChannel (env : Env V1 V2) (args : ChainAuthArgs) :
    Except AuthErr (Bool × EntitlementResultReason) :=
  if args.kind ≠ ChainAuthKind.channel then .error (.simple .internal .wrongChainAuthKind)
  else
    match env.getChannelEntitlements args.spaceId args.channelId args.permission with
    | .error e => .error e
    | .ok (entitlementData, owner) =>
      match evaluateWithEntitlements env args owner entitlementData with
      | .error e => .error e
      | .ok allowed => .ok (allowed, .channelEntitlements)

/-- areLinkedWalletsEntitled (auth_impl.go lines 458-476). -/
def areLinkedWalletsEntitled (env : Env V1 V2) (args : ChainAuthArgs) :
    Except AuthErr (Bool × EntitlementResultReason) :=
  if args.kind = ChainAuthKind.space then isEntitledToSpace env args
  else if args.kind = ChainAuthKind.channel then isEntitledToChannel env args
  else if args.kind = ChainAuthKind.isSpaceMember then .ok (true, .none)
  else .error (.simple .internal .unknownChainAuthKind)

/-- checkStreamIsEnabled (auth_impl.go lines 1003-1025); the underlying
contract reports the inverse (IsSpaceDisabled / IsChannelDisabled) and the
checker negates it, pairing it with the reason used when disabled. -/
def checkStreamIsEnabled (env : Env V1 V2) (args : ChainAuthArgs) :
    Except AuthErr (Bool × EntitlementResultReason) :=
  if args.kind = ChainAuthKind.space ∨ args.kind = ChainAuthKind.isSpaceMember then
    match env.isSpaceDisabled args.spaceId with
    | .error e => .error e
    | .ok isDisabled => .ok (!isDisabled, .spaceDisabled)
  else if args.kind = ChainAuthKind.channel then
    match env.isChannelDisabled args.spaceId args.channelId with
    | .error e => .error e
    | .ok isDisabled => .ok (!isDisabled, .channelDisabled)
  else if args.kind = ChainAuthKind.isWalletLinked then .ok (true, .none)
  else .error (.simple .internal .unknownChainAuthKind)

/-- The bust condition of getLinkedWallets (auth_impl.go lines 914-915). -/
def shouldBustLinkedWallets (args : ChainAuthArgs) : Bool :=
  decide (args.permission = Permission.read) ||
    decide (args.kind = ChainAuthKind.isSpaceMember) ||
    decide (args.kind = ChainAuthKind.isWalletLinked)

/-- Result of a getLinkedWallets call, with the model's explicit cache
instrumentation: didBust records whether the cache entry was busted before
the lookup, cacheAfter is the cache entry after the call. -/
structure LinkedWalletsOut where
  result : Except AuthErr (List Address)
  didBust : Bool
  cacheAfter : Option (List Address)

/-- getLinkedWallets (auth_impl.go lines 897-938).  The cache implementation
lives outside src.  Modelled from the spec: executeUsingCache returns the
cached entry on a hit and otherwise runs the computation and stores a
successful result; bust removes the entry immediately; TTL expiry and
single-flight are not modelled.  A missing wallet-link contract returns the
root key only, before any cache interaction. -/
def getLinkedWallets (env : Env V1 V2) (args : ChainAuthArgs)
    (cache : Option (List Address)) : LinkedWalletsOut :=
  if env.hasWalletLinkContract = false then
    { result := .ok [args.principal], didBust := false, cacheAfter := cache }
  else
    let didBust := shouldBustLinkedWallets args
    let cache1 := if didBust then none else cache
    match cache1 with
    | some ws => { result := .ok ws, didBust := didBust, cacheAfter := some ws }
    | none =>
      match env.resolveLinkedWallets args.principal with
      | .error e => { result := .error e, didBust := didBust, cacheAfter := none }
      | .ok ws => { result := .ok ws, didBust := didBust, cacheAfter := some ws }

/-- The result-collection loop of checkEntitlement (lines 1095-1111):
starting from isMember = false and isExpired = true, a member result sets
isMember, and a fresh member result additionally clears isExpired and breaks
out of the loop. -/
def membershipScan : List MembershipStatus → Bool → Bool × Bool
  | [], isMember => (isMember, true)
  | r :: rest, isMember =>
    if r.isMember then
      if !r.isExpired then (true, false)
      else membershipScan rest true
    else membershipScan rest isMember

/-- The membership results delivered on the results channel: one entry per
wallet whose probe succeeded, in wallet order (the model's linearization of
channel arrival order). -/
def probeResults (env : Env V1 V2) (spaceId : Nat) (wallets : List Address) :
    List MembershipStatus :=
  wallets.filterMap (fun w =>
    match env.getMembershipStatus spaceId w with
    | .ok r => some r
    | .error _ => none)

/-- The errors delivered on the error channel: one entry per wallet whose
probe failed, in wallet order. -/
def probeErrors (env : Env V1 V2) (spaceId : Nat) (wallets : List Address) :
    List AuthErr :=
  wallets.filterMap (fun w =>
    match env.getMembershipStatus spaceId w with
    | .ok _ => none
    | .error e => some e)

/-- The part of checkEntitlement after the wallet-cap guard (lines
1073-1178): fan out membership probes, classify the collected results, then
hand over to areLinkedWalletsEntitled. -/
def checkEntitlementMembershipPhase (env : Env V1 V2) (args : ChainAuthArgs)
    (wallets : List Address) : Except AuthErr (Bool × EntitlementResultReason) :=
  let scan := membershipScan (probeResults env args.spaceId wallets) false
  if scan.1 = false then
    match probeErrors env args.spaceId wallets with
    | [] => .ok (false, .membership)
    | e :: es => .error (.aggregate .cannotCheckEntitlements (e :: es))
  else if scan.2 = true then .ok (false, .membershipExpired)
  else areLinkedWalletsEntitled env args

/-- checkEntitlement (auth_impl.go lines 1033-1179): enabled check, linked
wallet resolution, the IsWalletLinked fast path, the wallet-cap guard, then
the membership phase on the args enriched with the serialized wallets. -/
def checkEntitlement (env : Env V1 V2) (args : ChainAuthArgs)
    (lwCache : Option (List Address)) : Except AuthErr (Bool × EntitlementResultReason) :=
  match checkStreamIsEnabled env args with
  | .error e => .error e
  | .ok (isEnabled, reason) =>
    if isEnabled = false then .ok (false, reason)
    else
      match (getLinkedWallets env args lwCache).result with
      | .error e => .error e
      | .ok wallets =>
        if args.kind = ChainAuthKind.isWalletLinked then
          if args.walletAddress ∈ wallets then .ok (true, .none)
          else .ok (false, .walletNotLinked)
        else if wallets.length > env.linkedWalletsLimit then
          .error (.simple .resourceExhausted .tooManyWallets)
        else checkEntitlementMembershipPhase env (args.withLinkedWallets wallets) wallets

/-- NewChainAuth (auth_impl.go lines 274-276): a non-positive configured
limit falls back to DEFAULT_MAX_WALLETS = 10. -/
def effectiveLinkedWalletsLimit (configured : Int) : Int :=
  if configured ≤ 0 then 10 else configured

/-- Per-record evaluation as the claim states it: a RuleV1 record converts
and then evaluates, a RuleV2 record evaluates directly, a user-list record
succeeds exactly when it holds the sentinel address 1 (0x…01) or some linked
wallet, and an unknown record counts as false. -/
def evalRecordSpec (env : Env V1 V2) (wallets : List Address) :
    Entitlement V1 V2 → Except AuthErr Bool
  | .ruleV1 re =>
    match env.convertV1RuleDataToV2 re with
    | .error e => .error e
    | .ok reV2 => env.evaluateRuleData wallets reV2
  | .ruleV2 re => env.evaluateRuleData wallets re
  | .userList users => .ok (decide ((1 : Nat) ∈ users ∨ ∃ w ∈ wallets, w ∈ users))
  | .unknown => .ok false

/-- Record-list evaluation as the claim states it: scan in order, the first
record that evaluates true wins, an error aborts the whole call, and an
exhausted list yields false. -/
def firstTrueSpec (env : Env V1 V2) (wallets : List Address) :
    List (Entitlement V1 V2) → Except AuthErr Bool
  | [] => .ok false
  | ent :: rest =>
    match evalRecordSpec env wallets ent with
    | .error e => .error e
    | .ok true => .ok true
    | .ok false => firstTrueSpec env wallets rest

/-- One log of the user-submitted BlockchainTransactionReceipt: raw byte
strings, modelled as lists of byte values. -/
structure UserLog where
  address : List Nat
  topics : List (List Nat)
  data : List Nat
deriving DecidableEq, Repr

/-- The user-submitted BlockchainTransactionReceipt fields VerifyReceipt
reads: block number (a uint64), logs, and the to and from addresses. -/
structure UserReceipt where
  blockNumber : Nat
  logs : List UserLog
  toAddr : List Nat
  fromAddr : List Nat
deriving DecidableEq, Repr

/-- One log of the authoritative chain receipt; address and topics are
compared byte-for-byte against the uploaded log, so they are byte lists
here too. -/
structure ChainLog where
  address : List Nat
  topics : List (List Nat)
  data : List Nat
deriving DecidableEq, Repr

/-- The chain receipt fields VerifyReceipt reads; blockNumber models the
big.Int, narrowed with Uint64 (modulo 2 ^ 64) wherever the Go code reads
it. -/
structure ChainReceipt where
  blockNumber : Nat
  logs : List ChainLog
deriving DecidableEq, Repr

/-- The transaction fields VerifyReceipt reads. -/
structure ChainTx where
  toAddr : List Nat
deriving DecidableEq, Repr

/-- Outcome of client.TransactionReceipt: the ethereum.NotFound error, some
other RPC error, or the receipt. -/
inductive ReceiptFetch where
  | notFound
  | rpcError (e : AuthErr)
  | found (r : ChainReceipt)

/-- The chain-client oracles VerifyReceipt consults, in call order:
GetClient, TransactionReceipt, TransactionByHash (with the pending flag),
the recovered sender, and the latest block number (a uint64). -/
structure VerifyEnv where
  getClient : Except AuthErr Unit
  txReceipt : ReceiptFetch
  txByHash : Except AuthErr (ChainTx × Bool)
  sender : Except AuthErr (List Nat)
  latestBlockNumber : Except AuthErr Nat

/-- The topic loop of VerifyReceipt (lines 363-368) for log i, starting at
topic index j; the topic lists have equal length when this runs. -/
def checkTopics (i j : Nat) : List (List Nat) → List (List Nat) → Option AuthErr
  | [], _ => none
  | _ :: _, [] => none
  | t :: ts, u :: us =>
    if t ≠ u then some (.simple .permissionDenied (.logTopicMismatch i j))
    else checkTopics i (j + 1) ts us

/-- The per-log comparisons of VerifyReceipt (lines 345-373): address, topic
count, each topic, then data. -/
def verifyLogPair (i : Nat) (cl : ChainLog) (ul : UserLog) : Option AuthErr :=
  if cl.address ≠ ul.address then some (.simple .permissionDenied (.logAddressMismatch i))
  else if cl.topics.length ≠ ul.topics.length then
    some (.simple .permissionDenied (.logTopicsCountMismatch i))
  else
    match checkTopics i 0 cl.topics ul.topics with
    | some e => some e
    | none =>
      if cl.data ≠ ul.data then some (.simple .permissionDenied (.logDataMismatch i))
      else none

/-- The log loop of VerifyReceipt, index-carrying; the log lists have equal
length when this runs. -/
def verifyLogsLoop (i : Nat) : List ChainLog → List UserLog → Option AuthErr
  | [], _ => none
  | _ :: _, [] => none
  | cl :: cls, ul :: uls =>
    match verifyLogPair i cl ul with
    | some e => some e
    | none => verifyLogsLoop (i + 1) cls uls

/-- VerifyReceipt (auth_impl.go lines 314-434): fetch the chain receipt,
compare block number and logs byte-exactly, fetch the transaction, reject
pending transactions, compare the to and recovered from addresses, then
require at least one confirmation.  The confirmation count is the uint64
difference latestBlockNumber - blockNumber, which wraps around modulo
2 ^ 64. -/
def VerifyReceipt (env : VerifyEnv) (ur : UserReceipt) : Except AuthErr Bool :=
  match env.getClient with
  | .error e => .error e
  | .ok _ =>
    match env.txReceipt with
    | .notFound => .error (.simple .permissionDenied .receiptNotFound)
    | .rpcError e => .error (.aggregate .downstreamNetworkError [e])
    | .found cr =>
      if cr.blockNumber % 2 ^ 64 ≠ ur.blockNumber then
        .error (.simple .permissionDenied .blockNumberMismatch)
      else if cr.logs.length ≠ ur.logs.length then
        .error (.simple .permissionDenied .logCountMismatch)
      else
        match verifyLogsLoop 0 cr.logs ur.logs with
        | some e => .error e
        | none =>
          match env.txByHash with
          | .error e => .error e
          | .ok (tx, isPending) =>
            if isPending then .error (.simple .permissionDenied .txPending)
            else if tx.toAddr ≠ ur.toAddr then
              .error (.simple .permissionDenied .toAddressMismatch)
            else
              match env.sender with
              | .error e => .error e
              | .ok s =>
                if s ≠ ur.fromAddr then
                  .error (.simple .permissionDenied .fromAddressMismatch)
                else
                  match env.latestBlockNumber with
                  | .error _ => .error (.simple .permissionDenied .failedLatestBlockNumber)
                  | .ok latest =>
                    if (latest % 2 ^ 64 + 2 ^ 64 - cr.blockNumber % 2 ^ 64) % 2 ^ 64 < 1 then
                      .error (.simple .permissionDenied .zeroConfirmations)
                    else .ok true

/-- Concrete argument record used by the witnesses: a space-kind request for
principal 3 with the Write permission. -/
def argsW : ChainAuthArgs :=
  { kind := ChainAuthKind.space, spaceId := 7, channelId := 8, principal := 3,
    permission := Permission.write, linkedWallets := [], walletAddress := 4 }

/-- The witness args with channel kind. -/
def argsChanW : ChainAuthArgs := { argsW with kind := ChainAuthKind.channel }

/-- The witness args with IsWalletLinked kind, principal 4 asking about
wallet 4. -/
def argsWLW : ChainAuthArgs :=
  { argsW with kind := ChainAuthKind.isWalletLinked, principal := 4, walletAddress := 4 }

/-- The witness args with IsWalletLinked kind, principal 4 asking about
wallet 5. -/
def argsWL2W : ChainAuthArgs := { argsWLW with walletAddress := 5 }

/-- The witness args with the Read permission. -/
def argsReadW : ChainAuthArgs := { argsW with permission := Permission.read }

/-- Concrete environment used by the witnesses: everything enabled, one
self-linked wallet per principal, a fresh member, a banning space contract,
empty entitlements with owner 9. -/
def envW : Env Nat Nat :=
  { linkedWalletsLimit := 10
    hasWalletLinkContract := true
    resolveLinkedWallets := fun p => .ok [p]
    isSpaceDisabled := fun _ => .ok false
    isChannelDisabled := fun _ _ => .ok false
    getSpaceEntitlements := fun _ _ => .ok ([], 9)
    getChannelEntitlements := fun _ _ _ => .ok ([], 9)
    isBanned := fun _ _ => .ok true
    getMembershipStatus := fun _ _ => .ok { isMember := true, isExpired := false }
    convertV1RuleDataToV2 := fun n => .ok n
    evaluateRuleData := fun _ _ => .ok false }

/-- The witness environment with a disabled space and channel. -/
def envDisabledW : Env Nat Nat :=
  { envW with isSpaceDisabled := fun _ => .ok true, isChannelDisabled := fun _ _ => .ok true }

/-- The witness environment with a wallet limit of zero. -/
def envCap0W : Env Nat Nat := { envW with linkedWalletsLimit := 0 }

/-- The witness environment with a wallet limit of one. -/
def envCap1W : Env Nat Nat := { envW with linkedWalletsLimit := 1 }

/-- The witness environment whose membership probes all report a non-member. -/
def envNonMemberW : Env Nat Nat :=
  { envW with getMembershipStatus := fun _ _ => .ok { isMember := false, isExpired := false } }

/-- The witness environment whose membership probes all report an expired
member. -/
def envExpiredW : Env Nat Nat :=
  { envW with getMembershipStatus := fun _ _ => .ok { isMember := true, isExpired := true } }

/-- The witness environment whose membership probes all fail. -/
def envProbeErrW : Env Nat Nat :=
  { envW with
    getMembershipStatus := fun _ _ => (.error (.simple .internal .unknownChainAuthKind)) }

/-- Concrete user receipt used by the receipt witnesses: block 1, no logs,
empty to and from. -/
def urW : UserReceipt := { blockNumber := 1, logs := [], toAddr := [], fromAddr := [] }

/-- Chain environment matching urW whose latest block number is 5. -/
def envConfW : VerifyEnv :=
  { getClient := .ok ()
    txReceipt := .found { blockNumber := 1, logs := [] }
    txByHash := .ok ({ toAddr := [] }, false)
    sender := .ok []
    latestBlockNumber := .ok 5 }

/-- The chain environment with latest block equal to the receipt block. -/
def envConfEqW : VerifyEnv := { envConfW with latestBlockNumber := .ok 1 }

/-- The chain environment with latest block 0, strictly below the receipt
block. -/
def envWrapW : VerifyEnv := { envConfW with latestBlockNumber := .ok 0 }

/-- The chain environment whose receipt lookup reports not-found. -/
def envNotFoundW : VerifyEnv := { envConfW with txReceipt := .notFound }

/-- The chain environment whose chain receipt carries block number 2,
mismatching urW. -/
def envBlockMismatchW : VerifyEnv :=
  { envConfW with txReceipt := .found { blockNumber := 2, logs := [] } }

theorem everyone_eq_one : everyone = 1 := by decide

theorem hexCharVal_hexDigitChar :
    ∀ d, d < 16 → hexCharVal? (hexDigitChar d) = some d := by
  decide

theorem hexDigitChar_ne_comma : ∀ d, d < 16 → hexDigitChar d ≠ ',' := by
  decide

theorem parseHexAcc_append (xs ys : List Char) (acc : Nat) :
    parseHexAcc acc (xs ++ ys) =
      match parseHexAcc acc xs with
      | some m => parseHexAcc m ys
      | none => none := by
  induction xs generalizing acc with
  | nil => simp [parseHexAcc]
  | cons c xs ih =>
    simp only [List.cons_append, parseHexAcc]
    cases hexCharVal? c with
    | some v => simp [ih]
    | none => simp

theorem parseHexAcc_toHexDigits (k : Nat) :
    ∀ n acc, parseHexAcc acc (toHexDigits k n) = some (acc * 16 ^ k + n % 16 ^ k) := by
  induction k with
  | zero => intro n acc; simp [toHexDigits, parseHexAcc, Nat.mod_one]
  | succ k ih =>
    intro n acc
    rw [toHexDigits, parseHexAcc_append, ih]
    have hd : n % 16 < 16 := Nat.mod_lt _ (by omega)
    simp only [parseHexAcc, hexCharVal_hexDigitChar _ hd]
    have hsplit : n % 16 ^ (k + 1) = 16 * (n / 16 % 16 ^ k) + n % 16 := by
      rw [pow_succ', Nat.mod_mul]
      ring
    rw [hsplit, Option.some.injEq]
    ring

theorem mem_toHexDigits (k : Nat) :
    ∀ n c, c ∈ toHexDigits k n → ∃ d, d < 16 ∧ c = hexDigitChar d := by
  induction k with
  | zero => intro n c h; simp [toHexDigits] at h
  | succ k ih =>
    intro n c h
    rw [toHexDigits] at h
    rcases List.mem_append.mp h with h | h
    · exact ih _ _ h
    · refine ⟨n % 16, Nat.mod_lt _ (by omega), ?_⟩
      simpa using h

theorem mem_addressHex_ne_comma (a : Address) (c : Char) (h : c ∈ addressHex a) : c ≠ ',' := by
  rw [addressHex] at h
  rcases h with _ | ⟨_, h⟩
  · decide
  · rcases h with _ | ⟨_, h⟩
    · decide
    · rcases mem_toHexDigits 40 a c h with ⟨d, hd, rfl⟩
      exact hexDigitChar_ne_comma d hd

theorem hexToAddress_addressHex (a : Address) (ha : a < 2 ^ 160) :
    hexToAddress (addressHex a) = a := by
  rw [addressHex, hexToAddress]
  simp only [parseHexAcc_toHexDigits]
  have h1 : (16 : Nat) ^ 40 = 2 ^ 160 := by norm_num
  rw [Nat.zero_mul, Nat.zero_add, h1, Nat.mod_eq_of_lt ha, Nat.mod_eq_of_lt ha]

theorem splitOnComma_ne_nil (s : List Char) : splitOnComma s ≠ [] := by
  induction s with
  | nil => simp [splitOnComma]
  | cons c rest ih =>
    rw [splitOnComma]
    by_cases hc : c = ','
    · simp [hc]
    · simp only [hc, if_false]
      cases splitOnComma rest with
      | nil => simp
      | cons p ps => simp

theorem splitOnComma_append_free (xs ys : List Char) (hfree : ∀ c ∈ xs, c ≠ ',')
    (p : List Char) (ps : List (List Char)) (hys : splitOnComma ys = p :: ps) :
    splitOnComma (xs ++ ys) = (xs ++ p) :: ps := by
  induction xs with
  | nil => simpa using hys
  | cons c xs ih =>
    have hc : c ≠ ',' := hfree c (List.mem_cons_self c xs)
    have ih2 := ih (fun d hd => hfree d (List.mem_cons_of_mem c hd))
    simp only [List.cons_append, splitOnComma, hc, if_false, List.append_eq, ih2]

theorem splitOnComma_serializeWallets (ws : List Address) (hne : ws ≠ []) :
    splitOnComma (serializeWallets ws) = ws.map addressHex := by
  induction ws with
  | nil => exact absurd rfl hne
  | cons a rest ih =>
    rw [serializeWallets]
    cases rest with
    | nil =>
      rw [serializeRest, List.append_nil]
      have := splitOnComma_append_free (addressHex a) []
        (fun c hc => mem_addressHex_ne_comma a c hc) [] [] (by rw [splitOnComma])
      rw [List.append_nil] at this
      rw [this]
      simp
    | cons b rest2 =>
      have ihr := ih (by simp)
      have h1 : splitOnComma (',' :: serializeWallets (b :: rest2)) =
          [] :: List.map addressHex (b :: rest2) := by
        rw [splitOnComma, if_pos rfl, ihr]
      have happ := splitOnComma_append_free (addressHex a)
        (',' :: serializeWallets (b :: rest2))
        (fun c hc => mem_addressHex_ne_comma a c hc)
        [] (List.map addressHex (b :: rest2)) h1
      rw [serializeRest]
      rw [show addressHex b ++ serializeRest rest2 = serializeWallets (b :: rest2) from rfl]
      rw [happ]
      simp

theorem deserializeWallets_serializeWallets (ws : List Address) (hne : ws ≠ [])
    (hbound : ∀ a ∈ ws, a < 2 ^ 160) :
    deserializeWallets (serializeWallets ws) = ws := by
  rw [deserializeWallets, splitOnComma_serializeWallets ws hne, List.map_map]
  have : ∀ a ∈ ws, (hexToAddress ∘ addressHex) a = id a := by
    intro a ha
    simp [Function.comp, hexToAddress_addressHex a (hbound a ha)]
  rw [List.map_congr_left this, List.map_id]

theorem deserializeWallets_nil : deserializeWallets [] = [0] := by decide

theorem userEntitlementHit_eq (wallets users : List Address) :
    userEntitlementHit wallets users =
      decide ((1 : Nat) ∈ users ∨ ∃ w ∈ wallets, w ∈ users) := by
  induction users with
  | nil => simp [userEntitlementHit]
  | cons user rest ih =>
    rw [userEntitlementHit]
    by_cases h1 : user = everyone
    · rw [if_pos h1]
      rw [everyone_eq_one] at h1
      subst h1
      simp
    · rw [if_neg h1]
      rw [everyone_eq_one] at h1
      by_cases h2 : user ∈ wallets
      · rw [if_pos h2]
        have hx : (1 : Nat) ∈ user :: rest ∨ ∃ w ∈ wallets, w ∈ user :: rest :=
          Or.inr ⟨user, h2, List.mem_cons_self user rest⟩
        exact (decide_eq_true hx).symm
      · rw [if_neg h2, ih, decide_eq_decide]
        constructor
        · rintro (h | ⟨w, hw, hwr⟩)
          · exact Or.inl (List.mem_cons_of_mem user h)
          · exact Or.inr ⟨w, hw, List.mem_cons_of_mem user hwr⟩
        · rintro (h | ⟨w, hw, hwu⟩)
          · rcases List.mem_cons.mp h with h | h
            · exact absurd h.symm h1
            · exact Or.inl h
          · rcases List.mem_cons.mp hwu with h | h
            · exact absurd (h ▸ hw) h2
            · exact Or.inr ⟨w, hw, h⟩

/-- C1: in evaluateWithEntitlements the owner check precedes and trumps the
ban check.  A deserialized wallet list containing the space owner yields
allowed with no error, for every entitlement list and every IsBanned oracle
(including one that errors, so IsBanned is not consulted); and for a wallet
list not containing the owner, an IsBanned oracle answering true yields not
allowed with no error, for every entitlement list. -/
theorem evaluateWithEntitlements_owner_ban (env : Env V1 V2) (args : ChainAuthArgs)
    (owner : Address) (ents : List (Entitlement V1 V2)) :
    (owner ∈ deserializeWallets args.linkedWallets →
      evaluateWithEntitlements env args owner ents = .ok true)
    ∧ (owner ∉ deserializeWallets args.linkedWallets →
      env.isBanned args.spaceId (deserializeWallets args.linkedWallets) = .ok true →
      evaluateWithEntitlements env args owner ents = .ok false) := by
  constructor
  · intro h
    simp [evaluateWithEntitlements, h]
  · intro h hb
    simp [evaluateWithEntitlements, h, hb]

theorem evaluateWithEntitlements_owner_ban_witness :
    evaluateWithEntitlements envW argsW 0 [] = .ok true ∧
    evaluateWithEntitlements envW argsW 5 [] = .ok false :=
  ⟨(evaluateWithEntitlements_owner_ban envW argsW 0 []).1 (by decide),
   (evaluateWithEntitlements_owner_ban envW argsW 5 []).2 (by decide) rfl⟩

/-- C2: evaluateEntitlementData coincides with the claim-level evaluator
firstTrueSpec — scan the records in order, short-circuit on the first true,
evaluate RuleV1 by converting to V2 first, RuleV2 directly, a user list by
the sentinel address 1 or a wallet hit, skip unknown records, propagate
conversion and evaluation errors, and return false when no record is true. -/
theorem evaluateEntitlementData_eq_firstTrueSpec (env : Env V1 V2)
    (ents : List (Entitlement V1 V2)) (args : ChainAuthArgs) :
    evaluateEntitlementData env ents args =
      firstTrueSpec env (deserializeWallets args.linkedWallets) ents := by
  rw [evaluateEntitlementData]
  induction ents with
  | nil => rfl
  | cons ent rest ih =>
    cases ent with
    | ruleV1 re =>
      rw [evaluateEntitlementLoop, firstTrueSpec]
      cases hc : env.convertV1RuleDataToV2 re with
      | error e => simp [evalRecordSpec, hc]
      | ok reV2 =>
        cases he : env.evaluateRuleData (deserializeWallets args.linkedWallets) reV2 with
        | error e => simp [evalRecordSpec, hc, he]
        | ok b =>
          cases b
          · simpa [evalRecordSpec, hc, he] using ih
          · simp [evalRecordSpec, hc, he]
    | ruleV2 re =>
      rw [evaluateEntitlementLoop, firstTrueSpec]
      cases he : env.evaluateRuleData (deserializeWallets args.linkedWallets) re with
      | error e => simp [evalRecordSpec, he]
      | ok b =>
        cases b
        · simpa [evalRecordSpec, he] using ih
        · simp [evalRecordSpec, he]
    | userList users =>
      rw [evaluateEntitlementLoop, firstTrueSpec]
      rw [userEntitlementHit_eq]
      by_cases h : ((1 : Nat) ∈ users ∨ ∃ w ∈ deserializeWallets args.linkedWallets, w ∈ users)
      · simp [evalRecordSpec, h]
      · simpa [evalRecordSpec, h] using ih
    | unknown =>
      rw [evaluateEntitlementLoop, firstTrueSpec]
      simpa [evalRecordSpec] using ih

/-- C10: for every non-empty wallet list, deserializeWallets applied to the
comma-separated serialization installed by withLinkedWallets returns exactly
the original list in order, while the empty list serializes to the empty
string, which deserializes to the one-element list holding the zero
address — so the round trip fails only there. -/
theorem withLinkedWallets_roundtrip (args : ChainAuthArgs) :
    (∀ ws : List Address, ws ≠ [] → (∀ a ∈ ws, a < 2 ^ 160) →
      deserializeWallets ((args.withLinkedWallets ws).linkedWallets) = ws)
    ∧ deserializeWallets ((args.withLinkedWallets []).linkedWallets) = [0] := by
  constructor
  · intro ws hne hb
    show deserializeWallets (serializeWallets ws) = ws
    exact deserializeWallets_serializeWallets ws hne hb
  · show deserializeWallets (serializeWallets []) = [0]
    rw [serializeWallets]
    exact deserializeWallets_nil

theorem withLinkedWallets_roundtrip_witness :
    deserializeWallets ((argsW.withLinkedWallets [1, 2]).linkedWallets) = [1, 2] ∧
    deserializeWallets ((argsW.withLinkedWallets []).linkedWallets) = [0] :=
  ⟨(withLinkedWallets_roundtrip argsW).1 [1, 2] (by decide) (by decide),
   (withLinkedWallets_roundtrip argsW).2⟩

/-- C5: a disabled space fails a Space or IsSpaceMember request with reason
SPACE_DISABLED and no error, and a disabled channel fails a Channel request
with reason CHANNEL_DISABLED and no error.  The environment and cache are
universally quantified, so wallet resolution, membership probes and
entitlement evaluation are never consulted — the result holds even when
those oracles error. -/
theorem checkEntitlement_disabled (env : Env V1 V2) (args : ChainAuthArgs)
    (cache : Option (List Address)) :
    ((args.kind = ChainAuthKind.space ∨ args.kind = ChainAuthKind.isSpaceMember) →
      env.isSpaceDisabled args.spaceId = .ok true →
      checkEntitlement env args cache = .ok (false, .spaceDisabled))
    ∧ (args.kind = ChainAuthKind.channel →
      env.isChannelDisabled args.spaceId args.channelId = .ok true →
      checkEntitlement env args cache = .ok (false, .channelDisabled)) := by
  constructor
  · intro hk hd
    have hen : checkStreamIsEnabled env args = .ok (false, .spaceDisabled) := by
      rw [checkStreamIsEnabled, if_pos hk, hd]
      rfl
    rw [checkEntitlement, hen]
    rfl
  · intro hk hd
    have hne : ¬(args.kind = ChainAuthKind.space ∨ args.kind = ChainAuthKind.isSpaceMember) := by
      rw [hk]; decide
    have hen : checkStreamIsEnabled env args = .ok (false, .channelDisabled) := by
      rw [checkStreamIsEnabled, if_neg hne, if_pos hk, hd]
      rfl
    rw [checkEntitlement, hen]
    rfl

theorem checkEntitlement_disabled_witness :
    checkEntitlement envDisabledW argsW none = .ok (false, .spaceDisabled) ∧
    checkEntitlement envDisabledW argsChanW none = .ok (false, .channelDisabled) :=
  ⟨(checkEntitlement_disabled envDisabledW argsW none).1 (Or.inl rfl) rfl,
   (checkEntitlement_disabled envDisabledW argsChanW none).2 rfl rfl⟩

/-- C7: an IsWalletLinked request skips the enabled check (the disabled
oracles are universally quantified, even erroring ones) and, once the linked
wallets are resolved, answers membership of the queried wallet with reason
NONE or WALLET_NOT_LINKED and no error. -/
theorem checkEntitlement_isWalletLinked (env : Env V1 V2) (args : ChainAuthArgs)
    (cache : Option (List Address)) (wallets : List Address)
    (hk : args.kind = ChainAuthKind.isWalletLinked)
    (hw : (getLinkedWallets env args cache).result = .ok wallets) :
    checkEntitlement env args cache =
      if args.walletAddress ∈ wallets then .ok (true, .none)
      else .ok (false, .walletNotLinked) := by
  have hen : checkStreamIsEnabled env args = .ok (true, .none) := by
    rw [checkStreamIsEnabled, if_neg (by rw [hk]; decide), if_neg (by rw [hk]; decide),
      if_pos hk]
  rw [checkEntitlement, hen]
  simp [hw, hk]

theorem checkEntitlement_isWalletLinked_witness :
    checkEntitlement envW argsWLW none = .ok (true, .none) ∧
    checkEntitlement envW argsWL2W none = .ok (false, .walletNotLinked) := by
  constructor
  · rw [checkEntitlement_isWalletLinked envW argsWLW none [4] rfl rfl]
    rfl
  · rw [checkEntitlement_isWalletLinked envW argsWL2W none [4] rfl rfl]
    rfl

/-- C8: getLinkedWallets busts the principal's linked-wallet cache entry
before the lookup exactly when the permission is Read or the kind is
IsSpaceMember or IsWalletLinked; a busting request always recomputes through
the resolver whatever the cache held, and any other request is served from
the cached entry.  The cache store itself lives outside src and is modelled
from the spec. -/
theorem getLinkedWallets_bust (env : Env V1 V2) (args : ChainAuthArgs)
    (cache : Option (List Address)) :
    (env.hasWalletLinkContract = true →
      (getLinkedWallets env args cache).didBust =
        (decide (args.permission = Permission.read) ||
          decide (args.kind = ChainAuthKind.isSpaceMember) ||
          decide (args.kind = ChainAuthKind.isWalletLinked)))
    ∧ (env.hasWalletLinkContract = true → shouldBustLinkedWallets args = true →
      (getLinkedWallets env args cache).result = env.resolveLinkedWallets args.principal)
    ∧ (∀ ws, env.hasWalletLinkContract = true → shouldBustLinkedWallets args = false →
      cache = some ws → (getLinkedWallets env args cache).result = .ok ws) := by
  refine ⟨?_, ?_, ?_⟩
  · intro hc
    rw [getLinkedWallets]
    simp only [hc]
    cases hb : shouldBustLinkedWallets args
    · rw [shouldBustLinkedWallets] at hb
      rw [← hb]
      cases cache with
      | none =>
        simp only [shouldBustLinkedWallets, hb, if_false]
        cases env.resolveLinkedWallets args.principal <;> simp [shouldBustLinkedWallets, hb]
      | some ws => simp [shouldBustLinkedWallets, hb]
    · rw [shouldBustLinkedWallets] at hb
      rw [← hb]
      simp only [shouldBustLinkedWallets, hb, if_true]
      cases env.resolveLinkedWallets args.principal <;> simp
  · intro hc hb
    rw [getLinkedWallets]
    simp only [hc, hb, if_true]
    cases env.resolveLinkedWallets args.principal <;> simp
  · intro ws hc hb hcache
    rw [getLinkedWallets]
    simp [hc, hb, hcache]

theorem getLinkedWallets_bust_witness :
    (getLinkedWallets envW argsReadW (some [7])).result = .ok [3] ∧
    (getLinkedWallets envW argsW (some [7])).result = .ok [7] ∧
    (getLinkedWallets envW argsReadW (some [7])).didBust = true := by
  refine ⟨?_, ?_, ?_⟩
  · rw [(getLinkedWallets_bust envW argsReadW (some [7])).2.1 rfl rfl]
    rfl
  · exact (getLinkedWallets_bust envW argsW (some [7])).2.2 [7] rfl rfl rfl
  · rw [(getLinkedWallets_bust envW argsReadW (some [7])).1 rfl]
    rfl

/-- C6: once a non-IsWalletLinked request has passed the enabled check and
resolved its wallets, strictly more wallets than linkedWalletsLimit yields
the RESOURCE_EXHAUSTED error — for every membership and entitlement oracle,
so neither is reached — while exactly linkedWalletsLimit wallets proceeds to
the membership phase; and a non-positive configured limit defaults to 10. -/
theorem checkEntitlement_wallet_cap (env : Env V1 V2) (args : ChainAuthArgs)
    (cache : Option (List Address)) (wallets : List Address)
    (r0 : EntitlementResultReason)
    (hk : args.kind ≠ ChainAuthKind.isWalletLinked)
    (hen : checkStreamIsEnabled env args = .ok (true, r0))
    (hw : (getLinkedWallets env args cache).result = .ok wallets) :
    (wallets.length > env.linkedWalletsLimit →
      checkEntitlement env args cache = .error (.simple .resourceExhausted .tooManyWallets))
    ∧ (wallets.length = env.linkedWalletsLimit →
      checkEntitlement env args cache =
        checkEntitlementMembershipPhase env (args.withLinkedWallets wallets) wallets)
    ∧ (∀ n : Int, n ≤ 0 → effectiveLinkedWalletsLimit n = 10) := by
  refine ⟨?_, ?_, ?_⟩
  · intro hgt
    rw [checkEntitlement, hen]
    simp [hw, hk, hgt]
  · intro heq
    rw [checkEntitlement, hen]
    simp [hw, hk, heq]
  · intro n hn
    rw [effectiveLinkedWalletsLimit, if_pos hn]

theorem membershipScan_eq (rs : List MembershipStatus) (b : Bool) :
    membershipScan rs b =
      (b || rs.any (fun r => r.isMember),
       !rs.any (fun r => r.isMember && !r.isExpired)) := by
  induction rs generalizing b with
  | nil => simp [membershipScan]
  | cons r rest ih =>
    rw [membershipScan]
    cases hm : r.isMember with
    | false => simp [hm, ih]
    | true =>
      cases he : r.isExpired with
      | false => simp [hm, he]
      | true => simp [hm, he, ih]

/-- C3: classification of the parallel membership probe.  Once a
non-IsWalletLinked request has passed the enabled check, resolved wallets
within the limit, the probe errors are consulted only when no probe reported
a member: no member and at least one error gives the aggregated
CANNOT_CHECK_ENTITLEMENTS error, no member and no errors gives
(false, MEMBERSHIP), members that were all expired give
(false, MEMBERSHIP_EXPIRED), and a fresh member proceeds to entitlement
evaluation with every probe error ignored. -/
theorem checkEntitlement_probe_outcomes (env : Env V1 V2) (args : ChainAuthArgs)
    (cache : Option (List Address)) (wallets : List Address)
    (r0 : EntitlementResultReason)
    (hk : args.kind ≠ ChainAuthKind.isWalletLinked)
    (hen : checkStreamIsEnabled env args = .ok (true, r0))
    (hw : (getLinkedWallets env args cache).result = .ok wallets)
    (hlim : wallets.length ≤ env.linkedWalletsLimit) :
    ((probeResults env args.spaceId wallets).any (fun r => r.isMember) = false →
      probeErrors env args.spaceId wallets = [] →
      checkEntitlement env args cache = .ok (false, .membership))
    ∧ ((probeResults env args.spaceId wallets).any (fun r => r.isMember) = false →
      probeErrors env args.spaceId wallets ≠ [] →
      checkEntitlement env args cache =
        .error (.aggregate .cannotCheckEntitlements (probeErrors env args.spaceId wallets)))
    ∧ ((probeResults env args.spaceId wallets).any (fun r => r.isMember) = true →
      (probeResults env args.spaceId wallets).any (fun r => r.isMember && !r.isExpired) = false →
      checkEntitlement env args cache = .ok (false, .membershipExpired))
    ∧ ((probeResults env args.spaceId wallets).any (fun r => r.isMember && !r.isExpired) = true →
      checkEntitlement env args cache =
        areLinkedWalletsEntitled env (args.withLinkedWallets wallets)) := by
  have hnot : ¬wallets.length > env.linkedWalletsLimit := by omega
  have hred : checkEntitlement env args cache =
      checkEntitlementMembershipPhase env (args.withLinkedWallets wallets) wallets := by
    rw [checkEntitlement, hen]
    simp [hw, hk, hnot]
  have hsp : (args.withLinkedWallets wallets).spaceId = args.spaceId := rfl
  refine ⟨?_, ?_, ?_, ?_⟩
  · intro h1 h2
    rw [hred, checkEntitlementMembershipPhase]
    simp only [membershipScan_eq, hsp, h1, h2]
    rfl
  · intro h1 h2
    rw [hred, checkEntitlementMembershipPhase]
    simp only [membershipScan_eq, hsp, h1]
    cases hE : probeErrors env args.spaceId wallets with
    | nil => exact absurd hE h2
    | cons e es => simp
  · intro h1 h2
    rw [hred, checkEntitlementMembershipPhase]
    simp only [membershipScan_eq, hsp, h1, h2]
    rfl
  · intro h
    have h1 : (probeResults env args.spaceId wallets).any (fun r => r.isMember) = true := by
      rw [List.any_eq_true] at h ⊢
      rcases h with ⟨r, hr, hf⟩
      refine ⟨r, hr, ?_⟩
      revert hf
      cases r.isMember <;> simp
    rw [hred, checkEntitlementMembershipPhase]
    simp only [membershipScan_eq, hsp, h1, h]
    rfl

theorem checkEntitlement_probe_outcomes_witness :
    checkEntitlement envNonMemberW argsW none = .ok (false, .membership) ∧
    checkEntitlement envProbeErrW argsW none =
      .error (.aggregate .cannotCheckEntitlements
        [.simple .internal .unknownChainAuthKind]) ∧
    checkEntitlement envExpiredW argsW none = .ok (false, .membershipExpired) ∧
    checkEntitlement envW argsW none =
      areLinkedWalletsEntitled envW (argsW.withLinkedWallets [3]) := by
  refine ⟨?_, ?_, ?_, ?_⟩
  · exact (checkEntitlement_probe_outcomes envNonMemberW argsW none [3] .spaceDisabled
      (by decide) rfl rfl (by decide)).1 rfl rfl
  · exact (checkEntitlement_probe_outcomes envProbeErrW argsW none [3] .spaceDisabled
      (by decide) rfl rfl (by decide)).2.1 rfl (List.cons_ne_nil _ _)
  · exact (checkEntitlement_probe_outcomes envExpiredW argsW none [3] .spaceDisabled
      (by decide) rfl rfl (by decide)).2.2.1 rfl rfl
  · exact (checkEntitlement_probe_outcomes envW argsW none [3] .spaceDisabled
      (by decide) rfl rfl (by decide)).2.2.2 rfl

theorem checkEntitlement_wallet_cap_witness :
    checkEntitlement envCap0W argsW none = .error (.simple .resourceExhausted .tooManyWallets) ∧
    checkEntitlement envCap1W argsW none =
      checkEntitlementMembershipPhase envCap1W (argsW.withLinkedWallets [3]) [3] ∧
    effectiveLinkedWalletsLimit (-3) = 10 :=
  ⟨(checkEntitlement_wallet_cap envCap0W argsW none [3] .spaceDisabled
      (by decide) rfl rfl).1 (by decide),
   (checkEntitlement_wallet_cap envCap1W argsW none [3] .spaceDisabled
      (by decide) rfl rfl).2.1 rfl,
   (checkEntitlement_wallet_cap envCap1W argsW none [3] .spaceDisabled
      (by decide) rfl rfl).2.2 (-3) (by decide)⟩

/-- C4 counterexample: a receipt whose byte comparisons all pass, whose chain
block number is 1, and whose latest block number is 0 — strictly below the
receipt's block, so the claim says it must be rejected — is accepted by
VerifyReceipt, because the confirmation count is computed by uint64
subtraction, which wraps around to 2 ^ 64 - 1. -/
theorem verifyReceipt_wraparound_cex : VerifyReceipt envWrapW urW = .ok true := by
  rfl

/-- C4 (amended): for every receipt that passed all byte comparisons, the
confirmation check fails with PERMISSION_DENIED exactly when the latest
block number equals the chain receipt's block number modulo 2 ^ 64; every
other input — latest at least block + 1, but also, by unsigned wraparound,
latest strictly below block — passes the check and returns true. -/
theorem verifyReceipt_confirmation (env : VerifyEnv) (ur : UserReceipt)
    (cr : ChainReceipt) (tx : ChainTx) (s : List Nat) (latest : Nat)
    (hc : env.getClient = .ok ())
    (hr : env.txReceipt = .found cr)
    (hbn : cr.blockNumber % 2 ^ 64 = ur.blockNumber)
    (hlen : cr.logs.length = ur.logs.length)
    (hlogs : verifyLogsLoop 0 cr.logs ur.logs = none)
    (htx : env.txByHash = .ok (tx, false))
    (hto : tx.toAddr = ur.toAddr)
    (hs : env.sender = .ok s)
    (hfrom : s = ur.fromAddr)
    (hl : env.latestBlockNumber = .ok latest) :
    (latest % 2 ^ 64 = ur.blockNumber →
      VerifyReceipt env ur = .error (.simple .permissionDenied .zeroConfirmations))
    ∧ (latest % 2 ^ 64 ≠ ur.blockNumber → VerifyReceipt env ur = .ok true) := by
  constructor
  · intro he
    have hlt : (latest % 2 ^ 64 + 2 ^ 64 - ur.blockNumber) % 2 ^ 64 < 1 := by
      rw [he]
      have h : ur.blockNumber + 2 ^ 64 - ur.blockNumber = 2 ^ 64 := by omega
      rw [h, Nat.mod_self]
      omega
    simp only [VerifyReceipt, hc, hr, hbn, hlen, hlogs, htx, hto, hs, hfrom, hl, ne_eq,
      not_true_eq_false, Bool.false_eq_true, if_false]
    rw [if_pos hlt]
  · intro hne
    have hb : ur.blockNumber < 2 ^ 64 := hbn ▸ Nat.mod_lt _ (by norm_num)
    have ha : latest % 2 ^ 64 < 2 ^ 64 := Nat.mod_lt _ (by norm_num)
    have hge : ¬((latest % 2 ^ 64 + 2 ^ 64 - ur.blockNumber) % 2 ^ 64 < 1) := by
      have h64 : (2 : Nat) ^ 64 = 18446744073709551616 := by norm_num
      rw [h64] at ha hb hne ⊢
      omega
    simp only [VerifyReceipt, hc, hr, hbn, hlen, hlogs, htx, hto, hs, hfrom, hl, ne_eq,
      not_true_eq_false, Bool.false_eq_true, if_false]
    rw [if_neg hge]

theorem checkTopics_pd (ts : List (List Nat)) :
    ∀ (i j : Nat) (us : List (List Nat)) (e : AuthErr), checkTopics i j ts us = some e →
      ∃ m, e = AuthErr.simple ErrCode.permissionDenied m := by
  induction ts with
  | nil =>
    intro i j us e h
    rw [checkTopics] at h
    exact Option.noConfusion h
  | cons t ts ih =>
    intro i j us e h
    cases us with
    | nil =>
      rw [checkTopics] at h
      exact Option.noConfusion h
    | cons u us =>
      rw [checkTopics] at h
      split at h
      · injection h with h2
        exact ⟨_, h2.symm⟩
      · exact ih _ _ _ _ h

theorem verifyLogPair_pd (i : Nat) (cl : ChainLog) (ul : UserLog) (e : AuthErr)
    (h : verifyLogPair i cl ul = some e) :
    ∃ m, e = AuthErr.simple ErrCode.permissionDenied m := by
  rw [verifyLogPair] at h
  split at h
  · injection h with h2
    exact ⟨_, h2.symm⟩
  · split at h
    · injection h with h2
      exact ⟨_, h2.symm⟩
    · split at h
      · rename_i e2 hct
        injection h with h2
        exact h2 ▸ checkTopics_pd cl.topics i 0 ul.topics e2 hct
      · split at h
        · injection h with h2
          exact ⟨_, h2.symm⟩
        · exact Option.noConfusion h

theorem verifyLogsLoop_pd (cls : List ChainLog) :
    ∀ (i : Nat) (uls : List UserLog) (e : AuthErr), verifyLogsLoop i cls uls = some e →
      ∃ m, e = AuthErr.simple ErrCode.permissionDenied m := by
  induction cls with
  | nil =>
    intro i uls e h
    rw [verifyLogsLoop] at h
    exact Option.noConfusion h
  | cons cl cls ih =>
    intro i uls e h
    cases uls with
    | nil =>
      rw [verifyLogsLoop] at h
      exact Option.noConfusion h
    | cons ul uls =>
      rw [verifyLogsLoop] at h
      split at h
      · rename_i e2 hlp
        injection h with h2
        exact h2 ▸ verifyLogPair_pd i cl ul e2 hlp
      · exact ih _ _ _ h

/-- C9: VerifyReceipt failure classification.  A not-found chain receipt is a
PERMISSION_DENIED error, any other receipt-fetch error is wrapped as
DOWNSTREAM_NETWORK_ERROR, every comparison mismatch — block number, log
count, a log address, topic count, topic or data, a pending transaction, the
to address, the recovered from address — is a PERMISSION_DENIED error naming
the mismatched field, and the call returns ok only with value true and only
when every fetch succeeded and every comparison passed. -/
theorem verifyReceipt_error_classes (env : VerifyEnv) (ur : UserReceipt) :
    (env.getClient = .ok () → env.txReceipt = .notFound →
      VerifyReceipt env ur = .error (.simple .permissionDenied .receiptNotFound))
    ∧ (∀ e, env.getClient = .ok () → env.txReceipt = .rpcError e →
      VerifyReceipt env ur = .error (.aggregate .downstreamNetworkError [e]))
    ∧ (∀ cr, env.getClient = .ok () → env.txReceipt = .found cr →
      cr.blockNumber % 2 ^ 64 ≠ ur.blockNumber →
      VerifyReceipt env ur = .error (.simple .permissionDenied .blockNumberMismatch))
    ∧ (∀ cr, env.getClient = .ok () → env.txReceipt = .found cr →
      cr.blockNumber % 2 ^ 64 = ur.blockNumber → cr.logs.length ≠ ur.logs.length →
      VerifyReceipt env ur = .error (.simple .permissionDenied .logCountMismatch))
    ∧ (∀ cr e, env.getClient = .ok () → env.txReceipt = .found cr →
      cr.blockNumber % 2 ^ 64 = ur.blockNumber → cr.logs.length = ur.logs.length →
      verifyLogsLoop 0 cr.logs ur.logs = some e →
      VerifyReceipt env ur = .error e ∧ ∃ m, e = .simple .permissionDenied m)
    ∧ (∀ cr tx, env.getClient = .ok () → env.txReceipt = .found cr →
      cr.blockNumber % 2 ^ 64 = ur.blockNumber → cr.logs.length = ur.logs.length →
      verifyLogsLoop 0 cr.logs ur.logs = none → env.txByHash = .ok (tx, true) →
      VerifyReceipt env ur = .error (.simple .permissionDenied .txPending))
    ∧ (∀ cr tx, env.getClient = .ok () → env.txReceipt = .found cr →
      cr.blockNumber % 2 ^ 64 = ur.blockNumber → cr.logs.length = ur.logs.length →
      verifyLogsLoop 0 cr.logs ur.logs = none → env.txByHash = .ok (tx, false) →
      tx.toAddr ≠ ur.toAddr →
      VerifyReceipt env ur = .error (.simple .permissionDenied .toAddressMismatch))
    ∧ (∀ cr tx s, env.getClient = .ok () → env.txReceipt = .found cr →
      cr.blockNumber % 2 ^ 64 = ur.blockNumber → cr.logs.length = ur.logs.length →
      verifyLogsLoop 0 cr.logs ur.logs = none → env.txByHash = .ok (tx, false) →
      tx.toAddr = ur.toAddr → env.sender = .ok s → s ≠ ur.fromAddr →
      VerifyReceipt env ur = .error (.simple .permissionDenied .fromAddressMismatch))
    ∧ (∀ b, VerifyReceipt env ur = .ok b → b = true ∧ ∃ cr tx s latest,
      env.getClient = .ok () ∧ env.txReceipt = .found cr ∧
      cr.blockNumber % 2 ^ 64 = ur.blockNumber ∧ cr.logs.length = ur.logs.length ∧
      verifyLogsLoop 0 cr.logs ur.logs = none ∧ env.txByHash = .ok (tx, false) ∧
      tx.toAddr = ur.toAddr ∧ env.sender = .ok s ∧ s = ur.fromAddr ∧
      env.latestBlockNumber = .ok latest) := by
  refine ⟨?_, ?_, ?_, ?_, ?_, ?_, ?_, ?_, ?_⟩
  · intro hc hr
    simp [VerifyReceipt, hc, hr]
  · intro e hc hr
    simp [VerifyReceipt, hc, hr]
  · intro cr hc hr hbn
    have h64 : (2 : Nat) ^ 64 = 18446744073709551616 := by norm_num
    rw [h64] at hbn
    simp [VerifyReceipt, hc, hr, hbn]
  · intro cr hc hr hbn hlen
    have h64 : (2 : Nat) ^ 64 = 18446744073709551616 := by norm_num
    rw [h64] at hbn
    simp [VerifyReceipt, hc, hr, hbn, hlen]
  · intro cr e hc hr hbn hlen hll
    refine ⟨?_, verifyLogsLoop_pd cr.logs 0 ur.logs e hll⟩
    have h64 : (2 : Nat) ^ 64 = 18446744073709551616 := by norm_num
    rw [h64] at hbn
    simp [VerifyReceipt, hc, hr, hbn, hlen, hll]
  · intro cr tx hc hr hbn hlen hll htx
    have h64 : (2 : Nat) ^ 64 = 18446744073709551616 := by norm_num
    rw [h64] at hbn
    simp [VerifyReceipt, hc, hr, hbn, hlen, hll, htx]
  · intro cr tx hc hr hbn hlen hll htx hto
    have h64 : (2 : Nat) ^ 64 = 18446744073709551616 := by norm_num
    rw [h64] at hbn
    simp [VerifyReceipt, hc, hr, hbn, hlen, hll, htx, hto]
  · intro cr tx s hc hr hbn hlen hll htx hto hs hfrom
    have h64 : (2 : Nat) ^ 64 = 18446744073709551616 := by norm_num
    rw [h64] at hbn
    simp [VerifyReceipt, hc, hr, hbn, hlen, hll, htx, hto, hs, hfrom]
  · intro b h
    rw [VerifyReceipt] at h
    split at h
    · exact Except.noConfusion h
    · rename_i u hgc
      split at h
      · exact Except.noConfusion h
      · exact Except.noConfusion h
      · rename_i cr hfr
        split at h
        · exact Except.noConfusion h
        · rename_i hbn
          split at h
          · exact Except.noConfusion h
          · rename_i hlen
            split at h
            · exact Except.noConfusion h
            · rename_i hll
              split at h
              · exact Except.noConfusion h
              · rename_i tx pending htx
                split at h
                · exact Except.noConfusion h
                · rename_i hpend
                  split at h
                  · exact Except.noConfusion h
                  · rename_i hto
                    split at h
                    · exact Except.noConfusion h
                    · rename_i s hs
                      split at h
                      · exact Except.noConfusion h
                      · rename_i hfrom
                        split at h
                        · exact Except.noConfusion h
                        · rename_i latest hl
                          split at h
                          · exact Except.noConfusion h
                          · injection h with hb
                            subst hb
                            have hpf : pending = false := by
                              revert hpend
                              cases pending <;> simp
                            rw [hpf] at htx
                            exact ⟨rfl, cr, tx, s, latest, hgc, hfr, not_not.mp hbn,
                              not_not.mp hlen, hll, htx, not_not.mp hto, hs,
                              not_not.mp hfrom, hl⟩

theorem verifyReceipt_error_classes_witness :
    VerifyReceipt envNotFoundW urW = .error (.simple .permissionDenied .receiptNotFound) ∧
    VerifyReceipt envBlockMismatchW urW =
      .error (.simple .permissionDenied .blockNumberMismatch) :=
  ⟨(verifyReceipt_error_classes envNotFoundW urW).1 rfl rfl,
   (verifyReceipt_error_classes envBlockMismatchW urW).2.2.1
     { blockNumber := 2, logs := [] } rfl rfl (by decide)⟩

theorem verifyReceipt_confirmation_witness :
    VerifyReceipt envConfW urW = .ok true ∧
    VerifyReceipt envConfEqW urW = .error (.simple .permissionDenied .zeroConfirmations) :=
  ⟨(verifyReceipt_confirmation envConfW urW { blockNumber := 1, logs := [] }
      { toAddr := [] } [] 5 rfl rfl rfl rfl rfl rfl rfl rfl rfl rfl).2 (by decide),
   (verifyReceipt_confirmation envConfEqW urW { blockNumber := 1, logs := [] }
      { toAddr := [] } [] 1 rfl rfl rfl rfl rfl rfl rfl rfl rfl rfl).1 (by decide)⟩

end TownsAuth
